import Mathlib

/-!
# Verification of the AegisAI document-analysis job/webhook core

Shallow embedding of the Python sources under `apps/api/src`:

* `webhooks/delivery.py` — `deliver_webhook`, `generate_signature`,
  `verify_signature` (HMAC-SHA256 over canonical JSON).
* `jobs/queue.py` — the in-memory fallback queue (`add_analysis_job`,
  `_process_queue_background`, `get_job_status`) and the BullMQ job
  options passed by `add_analysis_job`.
* `jobs/processor.py` — `process_analysis_job`.
* `endpoints/jobs.py` — `get_job`.
* `auth/api_keys.py` — `generate_api_key`, `validate_api_key`.
* `config.py` — the `Settings` values the above consume.

Python dictionaries are modelled as association lists, machine-level
side effects (HTTP calls, sleeps) as explicit oracles and traces, and
exceptions as `Except`/`Option` values.
-/

set_option autoImplicit false

namespace Aegis

/-! ## JSON values and Python `json.dumps`

`deliver_webhook` serializes its payload twice: once through
`json.dumps(payload, sort_keys=True)` inside `generate_signature`, and
once through httpx's `json=payload` keyword, which uses `json.dumps`
with the default (insertion) key order.  We model JSON values with
objects as ordered field lists, and `dumps` with its default separators
`", "` / `": "` and `ensure_ascii=True` escaping, parameterised on
`sort_keys`. -/

inductive Json where
  | str (text : String)
  | num (value : Int)
  | bool (flag : Bool)
  | null
  | arr (items : List Json)
  | obj (fields : List (String × Json))

/-- Lower-case hex digit for a value `< 16`, as `"%x"` formatting does. -/
def hexDigit (n : Nat) : Char :=
  if n < 10 then Char.ofNat (48 + n) else Char.ofNat (87 + n)

/-- Big-endian hex digits of `n`, `c` digits wide. -/
def hexN : Nat → Nat → List Char
  | 0, _ => []
  | c + 1, n => hexDigit ((n >>> (4 * c)) % 16) :: hexN c n

/-- `\uXXXX` escape of a 16-bit code unit. -/
def u16Escape (n : Nat) : List Char :=
  '\\' :: 'u' :: hexN 4 n

/-- JSON escape of a single character, following CPython's
`json.encoder` with `ensure_ascii=True`: short escapes for the usual
control characters, `\uXXXX` (with surrogate pairs above the BMP) for
everything outside printable ASCII. -/
def escapeChar (c : Char) : List Char :=
  let n := c.toNat
  if c = '"' then ['\\', '"']
  else if c = '\\' then ['\\', '\\']
  else if n = 8 then ['\\', 'b']
  else if n = 9 then ['\\', 't']
  else if n = 10 then ['\\', 'n']
  else if n = 12 then ['\\', 'f']
  else if n = 13 then ['\\', 'r']
  else if n < 32 then u16Escape n
  else if n < 127 then [c]
  else if n < 65536 then u16Escape n
  else
    let m := n - 65536
    u16Escape (55296 + m / 1024) ++ u16Escape (56320 + m % 1024)

/-- The quoted, escaped rendering of a JSON string. -/
def escapeString (s : String) : List Char :=
  '"' :: (s.data.flatMap escapeChar) ++ ['"']

/-- Decimal digits of a natural number, as `str` produces them. -/
def natChars (n : Nat) : List Char :=
  (Nat.toDigits 10 n)

/-- `str(int)` rendering of a (model) integer. -/
def intChars : Int → List Char
  | Int.ofNat n => natChars n
  | Int.negSucc n => '-' :: natChars (n + 1)

/-- Python string `<` used by `sorted`: lexicographic comparison of
code points. -/
def charsLt : List Char → List Char → Bool
  | _, [] => false
  | [], _ :: _ => true
  | a :: as, b :: bs =>
    if a.toNat < b.toNat then true
    else if b.toNat < a.toNat then false
    else charsLt as bs

/-- Key comparison used by `json.dumps(..., sort_keys=True)`. -/
def keyLt (a b : String) : Bool :=
  charsLt a.data b.data

/-- Stable insertion into a key-sorted list of rendered fields. -/
def insertField (x : String × List Char) :
    List (String × List Char) → List (String × List Char)
  | [] => [x]
  | y :: ys => if keyLt y.1 x.1 then y :: insertField x ys else x :: y :: ys

/-- Stable sort of rendered fields by key, as `sorted(dict.items())`. -/
def sortFields : List (String × List Char) → List (String × List Char)
  | [] => []
  | x :: xs => insertField x (sortFields xs)

/-- Interleave rendered items with the item separator (`sep.join`). -/
def joinSep (isep : List Char) : List (List Char) → List Char
  | [] => []
  | [x] => x
  | x :: y :: ys => x ++ isep ++ joinSep isep (y :: ys)

mutual
/-- `json.dumps(j, sort_keys=sk, separators=(isep, ksep))`, as a
character list.  Objects render their fields in insertion order, or
sorted by key when `sk` is true (the sort happens on the keys, so
sorting the rendered fields by key is the same thing).  The separators
are parameters because the two serializations the claims compare are
produced by different callers: the repo's own `json.dumps` calls use
the default `(", ", ": ")`, while httpx's `json=` encoding has used
both the default and the compact `(",", ":")` convention across its
releases (the repo pins no httpx version). -/
def dumpsSep (isep ksep : List Char) (sk : Bool) : Json → List Char
  | .str s => escapeString s
  | .num n => intChars n
  | .bool true => ("true" : String).data
  | .bool false => ("false" : String).data
  | .null => ("null" : String).data
  | .arr es => '[' :: joinSep isep (dumpsListSep isep ksep sk es) ++ [']']
  | .obj fs =>
    let rendered := dumpsFieldsSep isep ksep sk fs
    let ordered := if sk then sortFields rendered else rendered
    '{' :: joinSep isep (ordered.map fun kv => escapeString kv.1 ++ ksep ++ kv.2)
      ++ ['}']

def dumpsListSep (isep ksep : List Char) (sk : Bool) : List Json → List (List Char)
  | [] => []
  | e :: es => dumpsSep isep ksep sk e :: dumpsListSep isep ksep sk es

def dumpsFieldsSep (isep ksep : List Char) (sk : Bool) :
    List (String × Json) → List (String × List Char)
  | [] => []
  | (k, v) :: fs => (k, dumpsSep isep ksep sk v) :: dumpsFieldsSep isep ksep sk fs
end

/-- `json.dumps(j, sort_keys=sk)` with the default separators
`(", ", ": ")` — the form every `json.dumps` call in the repository
itself uses. -/
def dumps (sk : Bool) : Json → List Char :=
  dumpsSep [',', ' '] [':', ' '] sk

/-- `json.dumps` as a string. -/
def dumpsStr (sk : Bool) (j : Json) : String :=
  String.mk (dumps sk j)

/-! ## `config.py` — the settings the core consumes -/

structure Settings where
  WEBHOOK_TIMEOUT : Nat := 30
  WEBHOOK_MAX_RETRIES : Nat := 3
  WEBHOOK_RETRY_DELAY : Nat := 5

/-- The module-level `settings = Settings()` instance with its defaults. -/
def settings : Settings := {}

/-! ## `webhooks/delivery.py` — `deliver_webhook`

The HTTP POST performed on attempt number `k` (counting from 0) is
modelled by an oracle `Nat → HttpResult`: either a response with some
status code, or a transport-level exception (anything the `except`
clause catches).  `deliver_webhook` recurses with `retry_count + 1`
after sleeping `WEBHOOK_RETRY_DELAY * (retry_count + 1)` seconds, as
long as `retry_count < WEBHOOK_MAX_RETRIES`.  The model returns the
boolean result together with the observable trace: how many POSTs were
made and which sleeps happened.  The Python function catches every
exception, so the embedding is a total function into `DeliveryTrace`. -/

inductive HttpResult where
  | response (status : Nat)
  | exception

/-- `response.status_code in [200, 201, 202]`; an exception is never a
success. -/
def isDelivered : HttpResult → Bool
  | .response s => [200, 201, 202].contains s
  | .exception => false

structure DeliveryTrace where
  delivered : Bool
  posts : Nat
  sleeps : List Nat
deriving Repr, DecidableEq

/-- The retry loop of `deliver_webhook`, started at `retry_count = rc`.
Both the non-success-status branch and the exception branch retry in
exactly the same way, so they share this recursion. -/
def deliverLoop (oracle : Nat → HttpResult) (rc : Nat) : DeliveryTrace :=
  if isDelivered (oracle rc) then
    { delivered := true, posts := 1, sleeps := [] }
  else if h : rc < settings.WEBHOOK_MAX_RETRIES then
    let rest := deliverLoop oracle (rc + 1)
    { delivered := rest.delivered,
      posts := 1 + rest.posts,
      sleeps := settings.WEBHOOK_RETRY_DELAY * (rc + 1) :: rest.sleeps }
  else
    { delivered := false, posts := 1, sleeps := [] }
termination_by settings.WEBHOOK_MAX_RETRIES + 1 - rc

/-- The payload dict built at the top of `deliver_webhook`:
`{"event": event, "data": data, "timestamp": ...}`, in that insertion
order. -/
def webhookPayload (event : String) (data : Json) (timestamp : String) : Json :=
  .obj [("event", .str event), ("data", data), ("timestamp", .str timestamp)]

/-- The byte string `generate_signature` feeds to HMAC:
`json.dumps(payload, sort_keys=True)`. -/
def signatureInput (payload : Json) : List Char :=
  dumps true payload

/-- The request body httpx sends for `client.post(url, json=payload)`
with an explicit separator convention: httpx's content encoding builds
the body as a `json.dumps` of the payload — *without* `sort_keys`, so
in dict insertion order — and then UTF-8-encodes it
(`json_dumps(json).encode("utf-8")` in `httpx._content.encode_json`).
Releases up to 0.27 pass no separators (so the default `(", ", ": ")`)
and later releases pass the compact `(",", ":")`; the repository pins
no httpx version, so the separators stay a parameter here. -/
def webhookBodySep (isep ksep : List Char) (payload : Json) : List Char :=
  dumpsSep isep ksep false payload

/-- The request body under the default-separator convention
(httpx releases up to 0.27): `json.dumps(payload)` with insertion key
order. -/
def webhookBody (payload : Json) : List Char :=
  dumps false payload

/-- `deliver_webhook(url, event, data, secret)` called from the top
(`retry_count = 0`). -/
def deliver_webhook (oracle : Nat → HttpResult) : DeliveryTrace :=
  deliverLoop oracle 0

/-! ## SHA-256 and HMAC (`hashlib.sha256`, `hmac.new(..., hashlib.sha256)`)

Byte strings are `List Nat` with entries below 256; words are `Nat`
taken mod `2^32`. -/

/-- Truncation to a 32-bit word. -/
def w32 (n : Nat) : Nat := n % 4294967296

/-- 32-bit right rotation (argument below `2^32`, amount below 32). -/
def rotr (x n : Nat) : Nat := w32 ((x >>> n) ||| (x <<< (32 - n)))

/-- Bitwise complement on 32 bits. -/
def not32 (x : Nat) : Nat := 4294967295 ^^^ x

/-- Big-endian bytes of `n`, `c` bytes wide. -/
def beBytes : Nat → Nat → List Nat
  | 0, _ => []
  | c + 1, n => (n >>> (8 * c)) % 256 :: beBytes c n

/-- SHA-256 padding: `0x80`, zeros, then the 64-bit bit length. -/
def shaPad (msg : List Nat) : List Nat :=
  msg ++ 128 :: List.replicate ((119 - msg.length % 64) % 64) 0
      ++ beBytes 8 (8 * msg.length)

set_option linter.unusedVariables false in
/-- Split a byte string into 64-byte blocks. -/
def toBlocks (l : List Nat) : List (List Nat) :=
  if h : l = [] then []
  else l.take 64 :: toBlocks (l.drop 64)
termination_by l.length
decreasing_by
  simp only [List.length_drop]
  exact Nat.sub_lt (List.length_pos.mpr h) (by decide)

/-- The SHA-256 round constants (in decimal). -/
def K256 : List Nat :=
  [1116352408, 1899447441, 3049323471, 3921009573,
   961987163, 1508970993, 2453635748, 2870763221,
   3624381080, 310598401, 607225278, 1426881987,
   1925078388, 2162078206, 2614888103, 3248222580,
   3835390401, 4022224774, 264347078, 604807628,
   770255983, 1249150122, 1555081692, 1996064986,
   2554220882, 2821834349, 2952996808, 3210313671,
   3336571891, 3584528711, 113926993, 338241895,
   666307205, 773529912, 1294757372, 1396182291,
   1695183700, 1986661051, 2177026350, 2456956037,
   2730485921, 2820302411, 3259730800, 3345764771,
   3516065817, 3600352804, 4094571909, 275423344,
   430227734, 506948616, 659060556, 883997877,
   958139571, 1322822218, 1537002063, 1747873779,
   1955562222, 2024104815, 2227730452, 2361852424,
   2428436474, 2756734187, 3204031479, 3329325298]

structure H8 where
  a : Nat
  b : Nat
  c : Nat
  d : Nat
  e : Nat
  f : Nat
  g : Nat
  hh : Nat

/-- The SHA-256 initial hash value (in decimal). -/
def initH : H8 :=
  ⟨1779033703, 3144134277, 1013904242, 2773480762,
   1359893119, 2600822924, 528734635, 1541459225⟩

/-- Word `i` of a 64-byte block, big-endian. -/
def blockWord (block : List Nat) (i : Nat) : Nat :=
  block.getD (4 * i) 0 * 16777216 + block.getD (4 * i + 1) 0 * 65536
    + block.getD (4 * i + 2) 0 * 256 + block.getD (4 * i + 3) 0

/-- Extend the 16-word message schedule by `n` further words. -/
def extendSchedule (ws : List Nat) : Nat → List Nat
  | 0 => ws
  | n + 1 =>
    let i := ws.length
    let s0 := rotr (ws.getD (i - 15) 0) 7 ^^^ rotr (ws.getD (i - 15) 0) 18
      ^^^ (ws.getD (i - 15) 0 >>> 3)
    let s1 := rotr (ws.getD (i - 2) 0) 17 ^^^ rotr (ws.getD (i - 2) 0) 19
      ^^^ (ws.getD (i - 2) 0 >>> 10)
    extendSchedule (ws ++ [w32 (ws.getD (i - 16) 0 + s0 + ws.getD (i - 7) 0 + s1)]) n

/-- One SHA-256 compression round with constant `kw.1` and schedule
word `kw.2`. -/
def shaRound (s : H8) (kw : Nat × Nat) : H8 :=
  let S1 := rotr s.e 6 ^^^ rotr s.e 11 ^^^ rotr s.e 25
  let ch := (s.e &&& s.f) ^^^ (not32 s.e &&& s.g)
  let temp1 := w32 (s.hh + S1 + ch + kw.1 + kw.2)
  let S0 := rotr s.a 2 ^^^ rotr s.a 13 ^^^ rotr s.a 22
  let maj := (s.a &&& s.b) ^^^ (s.a &&& s.c) ^^^ (s.b &&& s.c)
  let temp2 := w32 (S0 + maj)
  ⟨w32 (temp1 + temp2), s.a, s.b, s.c, w32 (s.d + temp1), s.e, s.f, s.g⟩

/-- Process one 64-byte block. -/
def compressBlock (h0 : H8) (block : List Nat) : H8 :=
  let ws := extendSchedule ((List.range 16).map (blockWord block)) 48
  let s := (K256.zip ws).foldl shaRound h0
  ⟨w32 (h0.a + s.a), w32 (h0.b + s.b), w32 (h0.c + s.c), w32 (h0.d + s.d),
   w32 (h0.e + s.e), w32 (h0.f + s.f), w32 (h0.g + s.g), w32 (h0.hh + s.hh)⟩

/-- SHA-256 digest of a byte string, as eight 32-bit words. -/
def sha256Words (msg : List Nat) : List Nat :=
  let fin := (toBlocks (shaPad msg)).foldl compressBlock initH
  [fin.a, fin.b, fin.c, fin.d, fin.e, fin.f, fin.g, fin.hh]

/-- SHA-256 digest as 32 bytes. -/
def sha256Bytes (msg : List Nat) : List Nat :=
  (sha256Words msg).flatMap (beBytes 4)

/-- `hashlib.sha256(msg).hexdigest()`. -/
def sha256Hex (msg : List Nat) : String :=
  String.mk ((sha256Words msg).flatMap (hexN 8))

/-- `hmac.new(key, msg, hashlib.sha256).digest()` (keys longer than the
64-byte block are first hashed, shorter ones zero-padded). -/
def hmacSha256 (key msg : List Nat) : List Nat :=
  let k0 := if key.length > 64 then sha256Bytes key else key
  let kp := k0 ++ List.replicate (64 - k0.length) 0
  sha256Bytes ((kp.map (fun b => b ^^^ 92)) ++
    sha256Bytes ((kp.map (fun b => b ^^^ 54)) ++ msg))

/-- `hmac.new(key, msg, hashlib.sha256).hexdigest()`. -/
def hmacSha256Hex (key msg : List Nat) : String :=
  String.mk ((hmacSha256 key msg).flatMap (hexN 2))

/-- UTF-8 encoding of one character (`str.encode()`). -/
def utf8Char (c : Char) : List Nat :=
  let n := c.toNat
  if n < 128 then [n]
  else if n < 2048 then [192 + n / 64, 128 + n % 64]
  else if n < 65536 then [224 + n / 4096, 128 + n / 64 % 64, 128 + n % 64]
  else [240 + n / 262144, 128 + n / 4096 % 64, 128 + n / 64 % 64, 128 + n % 64]

/-- `str.encode()`: UTF-8 bytes of a string. -/
def utf8 (s : String) : List Nat :=
  s.data.flatMap utf8Char

/-- `generate_signature(payload, secret)`: HMAC-SHA256 of
`json.dumps(payload, sort_keys=True)` keyed by the secret, as a hex
digest. -/
def generate_signature (payload : Json) (secret : String) : String :=
  hmacSha256Hex (utf8 secret) (utf8 (dumpsStr true payload))

/-- `hmac.compare_digest` on two `str` arguments: constant-time in the
implementation, the same value as equality. -/
def compare_digest (a b : String) : Bool := a == b

/-- `verify_signature(payload, signature, secret)`. -/
def verify_signature (payload : Json) (signature : String) (secret : String) : Bool :=
  compare_digest signature (generate_signature payload secret)

/-! ## Python dictionaries as association lists -/

/-- `d[k] = v` on a dict: replace in place, or append a new entry. -/
def setEntry {V : Type} (m : List (String × V)) (k : String) (v : V) :
    List (String × V) :=
  match m with
  | [] => [(k, v)]
  | (k', v') :: rest => if k' = k then (k, v) :: rest else (k', v') :: setEntry rest k v

/-- `d.get(k)` on a dict. -/
def lookupEntry {V : Type} (m : List (String × V)) (k : String) : Option V :=
  match m with
  | [] => none
  | (k', v') :: rest => if k' = k then some v' else lookupEntry rest k

/-! ## `jobs/processor.py` — `process_analysis_job`

The backend HTTP call is an oracle per job: a 200 response with a valid
`document` object, a non-200 response (the code raises
`"Backend API error: ..."`), or an exception (transport error or a
malformed body raising during field access).  The `except` clause
builds the error payload, sends the failure webhook if a URL is
present, and re-raises; the caller observes `Except.error` with
`str(e)`.  Webhook-dispatch calls are recorded as `WebhookCall`s (their
delivery results are awaited but ignored by the processor). -/

structure JobData where
  job_id : String
  filename : String
  file_content : String
  webhook_url : Option String
  options : Json
  api_key : Option String

structure BackendDoc where
  id : String
  filename : String
  riskLevel : String
  riskCategory : Option String
  riskConfidence : Option Int
  riskExplanation : Option String
  recommendations : Option (List String)
  numPages : Int
  numChunks : Int

inductive BackendOutcome where
  | ok (doc : BackendDoc)
  | httpError (text : String)
  | exception (msg : String)

structure WebhookCall where
  url : String
  event : String
  data : Json

/-- The `analysis_result` dict the processor builds from the backend's
`document` object (missing optional fields take their `.get` defaults). -/
def analysisResult (jd : JobData) (doc : BackendDoc) : Json :=
  .obj [("job_id", .str jd.job_id),
        ("status", .str "completed"),
        ("result", .obj
          [("document_id", .str doc.id),
           ("filename", .str doc.filename),
           ("risk_level", .str doc.riskLevel),
           ("risk_category", .str (doc.riskCategory.getD "None")),
           ("risk_confidence", .num (doc.riskConfidence.getD 0)),
           ("risk_explanation", .str (doc.riskExplanation.getD "")),
           ("recommendations", .arr ((doc.recommendations.getD []).map .str)),
           ("num_pages", .num doc.numPages),
           ("num_chunks", .num doc.numChunks),
           ("metadata", .obj [])])]

/-- The `error_result` dict built in the `except` clause. -/
def errorResult (jd : JobData) (e : String) : Json :=
  .obj [("job_id", .str jd.job_id),
        ("status", .str "failed"),
        ("error", .str e)]

/-- `process_analysis_job(job)`: the returned value (or the exception
message it re-raises) together with the webhook dispatches it makes. -/
def process_analysis_job (backend : JobData → BackendOutcome) (jd : JobData) :
    Except String Json × List WebhookCall :=
  match backend jd with
  | .ok doc =>
    let res := analysisResult jd doc
    (Except.ok res,
     match jd.webhook_url with
     | some u => [⟨u, "analysis.completed", res⟩]
     | none => [])
  | .httpError text =>
    let e := "Backend API error: " ++ text
    (Except.error e,
     match jd.webhook_url with
     | some u => [⟨u, "analysis.failed", errorResult jd e⟩]
     | none => [])
  | .exception e =>
    (Except.error e,
     match jd.webhook_url with
     | some u => [⟨u, "analysis.failed", errorResult jd e⟩]
     | none => [])

/-! ## `jobs/queue.py` — the in-memory fallback queue

State: `_in_memory_queue` (a list of job-data dicts) and
`_in_memory_processing` (a dict from job id to a status dict).
Operations: `add_analysis_job` (its in-memory branch) and one iteration
of the `_process_queue_background` loop (`tick`).  `execLog` and
`webhookLog` are ghost trace fields recording which jobs were handed to
`process_analysis_job` and which webhook dispatches happened; the
Python state machine never reads them. -/

inductive ProcEntry where
  | pending
  | processing
  | completed
  | failed (error : String)
deriving DecidableEq, Repr

/-- The `"status"` value stored in the processing dict. -/
def statusStr : ProcEntry → String
  | .pending => "pending"
  | .processing => "processing"
  | .completed => "completed"
  | .failed _ => "failed"

/-- The status dict itself: `{"status": ...}` and, for failures, the
`"error"` entry.  There is never a `"result"` key. -/
def entryDict : ProcEntry → List (String × Json)
  | .pending => [("status", .str "pending")]
  | .processing => [("status", .str "processing")]
  | .completed => [("status", .str "completed")]
  | .failed e => [("status", .str "failed"), ("error", .str e)]

structure QueueState where
  queue : List JobData
  processing : List (String × ProcEntry)
  execLog : List String
  webhookLog : List WebhookCall

/-- The initial module state: both structures empty. -/
def initQueueState : QueueState := ⟨[], [], [], []⟩

/-- The in-memory branch of `add_analysis_job`: append the job data and
set `_in_memory_processing[job_id] = {"status": "pending"}`
(unconditionally — there is no duplicate check).  The function returns
`job_id`. -/
def addJob (s : QueueState) (jd : JobData) : QueueState :=
  { s with queue := s.queue ++ [jd],
           processing := setEntry s.processing jd.job_id .pending }

/-- `add_analysis_job` including its return value. -/
def add_analysis_job (s : QueueState) (jd : JobData) : String × QueueState :=
  (jd.job_id, addJob s jd)

/-- One iteration of `_process_queue_background`: if the queue is
nonempty, pop the head, mark it `processing`, run
`process_analysis_job`, then mark it `completed` or
`failed`/`str(e)`; otherwise just sleep. -/
def tick (backend : JobData → BackendOutcome) (s : QueueState) : QueueState :=
  match s.queue with
  | [] => s
  | jd :: rest =>
    let p1 := setEntry s.processing jd.job_id .processing
    let pr := process_analysis_job backend jd
    let entry := match pr.1 with
      | .ok _ => ProcEntry.completed
      | .error e => ProcEntry.failed e
    { queue := rest,
      processing := setEntry p1 jd.job_id entry,
      execLog := s.execLog ++ [jd.job_id],
      webhookLog := s.webhookLog ++ pr.2 }

inductive QOp where
  | add (jd : JobData)
  | tick

/-- Run one queue operation. -/
def runOp (backend : JobData → BackendOutcome) (s : QueueState) : QOp → QueueState
  | .add jd => addJob s jd
  | .tick => tick backend s

/-- Run a sequence of queue operations from a state. -/
def runOps (backend : JobData → BackendOutcome) (s : QueueState) :
    List QOp → QueueState
  | [] => s
  | op :: ops => runOps backend (runOp backend s op) ops

/-- The job options `add_analysis_job` passes to BullMQ's `queue.add`
when BullMQ is available (the retry configuration lives in the queue
library, not in this repository's code). -/
structure BullJobOptions where
  attempts : Nat
  backoffType : String
  backoffDelay : Nat
deriving DecidableEq, Repr

/-- `attempts=3, backoff={"type": "exponential", "delay": 2000}`. -/
def bullAddOptions : BullJobOptions :=
  { attempts := 3, backoffType := "exponential", backoffDelay := 2000 }

/-! ## `get_job_status` (in-memory branch) and `endpoints/jobs.py` `get_job` -/

structure JobStatusInfo where
  job_id : String
  status : String
  data : ProcEntry

/-- `get_job_status(job_id)` in the in-memory branch: the stored status
dict, or `None` for unknown ids (`progress` is always `None`). -/
def get_job_status (s : QueueState) (job_id : String) : Option JobStatusInfo :=
  match lookupEntry s.processing job_id with
  | some e => some ⟨job_id, statusStr e, e⟩
  | none => none

/-- The BullMQ-state translation table in `get_job`. -/
def statusMap : List (String × String) :=
  [("waiting", "pending"), ("active", "processing"), ("completed", "completed"),
   ("failed", "failed"), ("delayed", "pending")]

structure JobStatusResponse where
  job_id : String
  status : String
  result : Option Json
  error : Option String

/-- `GET /jobs/{job_id}`: 404 for unknown ids; otherwise the mapped
status, the `result` value from the job data if the status mapped to
`"completed"` and a `"result"` key is present, and the fixed error
string for failures.  (`created_at`/`completed_at` are wall-clock
values and are not modelled.) -/
def get_job (s : QueueState) (job_id : String) : Except Nat JobStatusResponse :=
  match get_job_status s job_id with
  | none => .error 404
  | some info =>
    let job_status := (lookupEntry statusMap info.status).getD "unknown"
    let result :=
      if job_status = "completed" then lookupEntry (entryDict info.data) "result"
      else none
    let error :=
      if job_status = "failed" then some "Job processing failed" else none
    .ok ⟨job_id, job_status, result, error⟩

/-! ## `auth/api_keys.py`

`secrets.token_urlsafe` values are parameters of the model; the stored
`created_at`/`last_used` timestamps are wall-clock values and are not
modelled. -/

structure KeyInfo where
  key_id : String
  hashed_secret : String
  rate_limit : Nat
  tier : String
  active : Bool

/-- `generate_api_key()` with the two random tokens as parameters:
returns `(key_id, full_key)` and the updated `API_KEYS` store. -/
def generate_api_key (store : List (String × KeyInfo)) (token16 token32 : String) :
    (String × String) × List (String × KeyInfo) :=
  let key_id := "key_" ++ token16
  let full_key := key_id ++ "_" ++ token32
  let hashed := sha256Hex (utf8 token32)
  ((key_id, full_key),
   setEntry store key_id ⟨key_id, hashed, 100, "free", true⟩)

/-- `api_key.split("_", 1)`: `none` when there is no underscore (one
part), otherwise the text before and after the first underscore. -/
def splitOnceUnderscore : List Char → Option (List Char × List Char)
  | [] => none
  | c :: cs =>
    if c = '_' then some ([], cs)
    else match splitOnceUnderscore cs with
      | some (a, b) => some (c :: a, b)
      | none => none

/-- `validate_api_key(api_key)` against a store (the `last_used` update
is a timestamp write and is not modelled). -/
def validate_api_key (store : List (String × KeyInfo)) (api_key : String) :
    Option KeyInfo :=
  match splitOnceUnderscore api_key.data with
  | none => none
  | some (kid, secret) =>
    match lookupEntry store (String.mk kid) with
    | none => none
    | some info =>
      if !info.active then none
      else if sha256Hex (utf8 (String.mk secret)) = info.hashed_secret then some info
      else none

/-! ## Observations used by the claims about the queue state machine -/

/-- The status recorded for a job id (`None` for ids the processing
dict has never seen). -/
def jobStatus (s : QueueState) (id : String) : Option ProcEntry :=
  lookupEntry s.processing id

/-- Position of a status along `Pending → Processing → {Completed |
Failed}`; an absent record ranks below everything. -/
def statusRank : Option ProcEntry → Nat
  | none => 0
  | some .pending => 1
  | some .processing => 2
  | some .completed => 3
  | some (.failed _) => 3

/-- Whether a recorded status is terminal. -/
def isTerminalEntry : Option ProcEntry → Bool
  | some .completed => true
  | some (.failed _) => true
  | _ => false

/-- One step never moves any job's status backward, and never moves it
at all out of a terminal state. -/
def stepMono (s s' : QueueState) : Prop :=
  ∀ id : String,
    statusRank (jobStatus s id) ≤ statusRank (jobStatus s' id) ∧
    (isTerminalEntry (jobStatus s id) = true → jobStatus s' id = jobStatus s id)

/-- Every step of an operation sequence is monotone in the sense of
`stepMono`. -/
def StepsMono (backend : JobData → BackendOutcome) : QueueState → List QOp → Prop
  | _, [] => True
  | s, op :: ops => stepMono s (runOp backend s op) ∧ StepsMono backend (runOp backend s op) ops

/-- The job ids submitted by the `add` operations of a sequence. -/
def addIds : List QOp → List String
  | [] => []
  | .add jd :: ops => jd.job_id :: addIds ops
  | .tick :: ops => addIds ops

/-- Ids present in the processing dict. -/
def procIds (s : QueueState) : List String :=
  s.processing.map (·.1)

/-- Ids of the queued jobs. -/
def queueIds (s : QueueState) : List String :=
  s.queue.map (·.job_id)

/-- The internal invariant of the in-memory queue: queued ids are
distinct, every queued id has a processing record, and that record is
`pending`. -/
def QInv (s : QueueState) : Prop :=
  (queueIds s).Nodup ∧
  (∀ id ∈ queueIds s, id ∈ procIds s) ∧
  (∀ jd ∈ s.queue, jobStatus s jd.job_id = some .pending)

/-! ## Concrete fixtures used by counterexamples and witnesses -/

/-- A submitted job with a webhook URL. -/
def demoJob : JobData :=
  ⟨"job_1", "f.pdf", "00", some "https://w.example", .obj [], none⟩

/-- A valid backend `document` object with id `"doc-123"`. -/
def demoDoc : BackendDoc :=
  ⟨"doc-123", "f.pdf", "Normal", none, none, none, none, 2, 3⟩

/-- A backend that always answers 200 with `demoDoc`. -/
def demoBackend : JobData → BackendOutcome := fun _ => .ok demoDoc

/-- A backend whose call always raises. -/
def demoFailBackend : JobData → BackendOutcome := fun _ => .exception "boom"

/-! # Theorems

## Webhook delivery: unfolding lemmas for the retry loop -/

lemma deliverLoop_unfold (oracle : Nat → HttpResult) (rc : Nat) :
    deliverLoop oracle rc =
      if isDelivered (oracle rc) then { delivered := true, posts := 1, sleeps := [] }
      else if rc < settings.WEBHOOK_MAX_RETRIES then
        { delivered := (deliverLoop oracle (rc + 1)).delivered,
          posts := 1 + (deliverLoop oracle (rc + 1)).posts,
          sleeps := settings.WEBHOOK_RETRY_DELAY * (rc + 1)
            :: (deliverLoop oracle (rc + 1)).sleeps }
      else { delivered := false, posts := 1, sleeps := [] } := by
  conv_lhs => rw [deliverLoop]
  split
  · rfl
  · split <;> rfl

lemma deliverLoop_succ {oracle : Nat → HttpResult} {rc : Nat}
    (h : isDelivered (oracle rc) = true) :
    deliverLoop oracle rc = { delivered := true, posts := 1, sleeps := [] } := by
  rw [deliverLoop_unfold, h]; rfl

lemma deliverLoop_retry {oracle : Nat → HttpResult} {rc : Nat}
    (h : isDelivered (oracle rc) = false) (h2 : rc < settings.WEBHOOK_MAX_RETRIES) :
    deliverLoop oracle rc =
      { delivered := (deliverLoop oracle (rc + 1)).delivered,
        posts := 1 + (deliverLoop oracle (rc + 1)).posts,
        sleeps := settings.WEBHOOK_RETRY_DELAY * (rc + 1)
          :: (deliverLoop oracle (rc + 1)).sleeps } := by
  rw [deliverLoop_unfold, h, if_neg (by simp), if_pos h2]

lemma deliverLoop_stop {oracle : Nat → HttpResult} {rc : Nat}
    (h : isDelivered (oracle rc) = false) (h2 : ¬ rc < settings.WEBHOOK_MAX_RETRIES) :
    deliverLoop oracle rc = { delivered := false, posts := 1, sleeps := [] } := by
  rw [deliverLoop_unfold, h, if_neg (by simp), if_neg h2]

/-- Full evaluation of `deliver_webhook` against an endpoint that
answers 500 to every POST. -/
lemma allFail500_eval :
    deliver_webhook (fun _ => .response 500) =
      { delivered := false, posts := 4, sleeps := [5, 10, 15] } := by
  have hs : ∀ k : Nat, isDelivered ((fun _ : Nat => HttpResult.response 500) k) = false :=
    fun _ => rfl
  rw [deliver_webhook,
      @deliverLoop_retry (fun _ => HttpResult.response 500) 0 (hs 0) (by decide),
      @deliverLoop_retry (fun _ => HttpResult.response 500) 1 (hs 1) (by decide),
      @deliverLoop_retry (fun _ => HttpResult.response 500) 2 (hs 2) (by decide),
      @deliverLoop_stop (fun _ => HttpResult.response 500) 3 (hs 3) (by decide)]
  decide

/-- C4 (corrected): against an endpoint failing every POST the claim
predicts exactly 3 POSTs together with a `false` result, but with
`WEBHOOK_MAX_RETRIES = 3` the code makes the initial attempt *plus* 3
retries, so the conjunction is false: the endpoint is POSTed 4 times. -/
theorem C4_counterexample :
    ¬ ((deliver_webhook (fun _ => .response 500)).delivered = false ∧
       (deliver_webhook (fun _ => .response 500)).posts = 3) := by
  rw [allFail500_eval]
  decide

/-- C4 (amended): when every POST up to attempt `WEBHOOK_MAX_RETRIES`
fails, `deliver_webhook` returns `False` after exactly
`WEBHOOK_MAX_RETRIES + 1 = 4` POSTs (one initial attempt plus
`WEBHOOK_MAX_RETRIES` retries). -/
theorem C4_amended_four_posts (oracle : Nat → HttpResult)
    (h : ∀ k, k ≤ settings.WEBHOOK_MAX_RETRIES → isDelivered (oracle k) = false) :
    (deliver_webhook oracle).delivered = false ∧
      (deliver_webhook oracle).posts = settings.WEBHOOK_MAX_RETRIES + 1 := by
  rw [deliver_webhook,
      deliverLoop_retry (h 0 (by decide)) (by decide),
      deliverLoop_retry (h 1 (by decide)) (by decide),
      deliverLoop_retry (h 2 (by decide)) (by decide),
      deliverLoop_stop (h 3 (by decide)) (by decide)]
  exact ⟨rfl, rfl⟩

/-- Witness for `C4_amended_four_posts` at the all-500 endpoint. -/
theorem C4_witness :
    (deliver_webhook (fun _ => .response 500)).delivered = false ∧
      (deliver_webhook (fun _ => .response 500)).posts = 4 :=
  C4_amended_four_posts (fun _ => .response 500) (fun _ _ => rfl)

lemma deliverLoop_delivered_iff (oracle : Nat → HttpResult) :
    ∀ n rc : Nat, rc + n = settings.WEBHOOK_MAX_RETRIES →
      ((deliverLoop oracle rc).delivered = true ↔
        ∃ k, rc ≤ k ∧ k ≤ settings.WEBHOOK_MAX_RETRIES ∧ isDelivered (oracle k) = true) := by
  intro n
  induction n with
  | zero =>
    intro rc hrc
    cases hd : isDelivered (oracle rc) with
    | false =>
      rw [deliverLoop_stop hd (by omega)]
      constructor
      · intro h; exact absurd h (by simp)
      · rintro ⟨k, hk1, hk2, hk3⟩
        have hk : k = rc := by omega
        rw [hk, hd] at hk3
        exact absurd hk3 (by simp)
    | true =>
      rw [deliverLoop_succ hd]
      exact ⟨fun _ => ⟨rc, Nat.le_refl _, by omega, hd⟩, fun _ => rfl⟩
  | succ n ih =>
    intro rc hrc
    cases hd : isDelivered (oracle rc) with
    | false =>
      rw [deliverLoop_retry hd (by omega)]
      have hiff := ih (rc + 1) (by omega)
      show (deliverLoop oracle (rc + 1)).delivered = true ↔ _
      constructor
      · intro h
        obtain ⟨k, hk1, hk2, hk3⟩ := hiff.mp h
        exact ⟨k, by omega, hk2, hk3⟩
      · rintro ⟨k, hk1, hk2, hk3⟩
        have hne : k ≠ rc := fun e => by rw [e, hd] at hk3; cases hk3
        exact hiff.mpr ⟨k, by omega, hk2, hk3⟩
    | true =>
      rw [deliverLoop_succ hd]
      exact ⟨fun _ => ⟨rc, Nat.le_refl _, by omega, hd⟩, fun _ => rfl⟩

/-- C5 (confirmed): `deliver_webhook` returns `True` exactly when some
attempt `k ≤ WEBHOOK_MAX_RETRIES` receives an HTTP status in
`{200, 201, 202}`, and returns `False` in every other case — including
transport exceptions, which `isDelivered` never counts as success.
`deliver_webhook` is a total function into `DeliveryTrace`, which is
the embedding of "the Python function catches every exception and
never raises to its caller". -/
theorem C5_delivered_iff_success (oracle : Nat → HttpResult) :
    (deliver_webhook oracle).delivered = true ↔
      ∃ k, k ≤ settings.WEBHOOK_MAX_RETRIES ∧ isDelivered (oracle k) = true := by
  rw [deliver_webhook]
  have h := deliverLoop_delivered_iff oracle settings.WEBHOOK_MAX_RETRIES 0 (by omega)
  simpa using h

lemma deliverLoop_sleeps_formula (oracle : Nat → HttpResult) :
    ∀ n rc : Nat, rc + n = settings.WEBHOOK_MAX_RETRIES →
      (deliverLoop oracle rc).sleeps =
        (List.range (deliverLoop oracle rc).sleeps.length).map
          (fun i => settings.WEBHOOK_RETRY_DELAY * (rc + 1 + i)) := by
  intro n
  induction n with
  | zero =>
    intro rc hrc
    cases hd : isDelivered (oracle rc) with
    | false => rw [deliverLoop_stop hd (by omega)]; rfl
    | true => rw [deliverLoop_succ hd]; rfl
  | succ n ih =>
    intro rc hrc
    cases hd : isDelivered (oracle rc) with
    | false =>
      rw [deliverLoop_retry hd (by omega)]
      have h2 := ih (rc + 1) (by omega)
      show settings.WEBHOOK_RETRY_DELAY * (rc + 1) :: (deliverLoop oracle (rc + 1)).sleeps
          = (List.range ((settings.WEBHOOK_RETRY_DELAY * (rc + 1)
              :: (deliverLoop oracle (rc + 1)).sleeps).length)).map
            (fun i => settings.WEBHOOK_RETRY_DELAY * (rc + 1 + i))
      rw [List.length_cons, List.range_succ_eq_map, List.map_cons, List.map_map]
      refine congrArg₂ List.cons (by simp) ?_
      rw [h2]
      simp only [List.length_map, List.length_range]
      apply List.map_congr_left
      intro i _
      simp only [Function.comp_apply, Nat.succ_eq_add_one]
      ring_nf
    | true =>
      rw [deliverLoop_succ hd]; rfl

/-- C6 (corrected): the claim predicts the delay after failed attempt
`n` to be `base * n` (so a first delay of 0 seconds); the code sleeps
`WEBHOOK_RETRY_DELAY * (retry_count + 1)`.  Against an endpoint that
fails every POST the observed sleeps are `[5, 10, 15]`, not
`[5*0, 5*1, 5*2] = [0, 5, 10]`. -/
theorem C6_counterexample :
    (deliver_webhook (fun _ => .response 500)).sleeps = [5, 10, 15] ∧
    (deliver_webhook (fun _ => .response 500)).sleeps ≠
      (List.range 3).map (fun i => settings.WEBHOOK_RETRY_DELAY * i) := by
  rw [allFail500_eval]
  decide

/-- C6 (amended): the delay slept after failed attempt `i` (0-based,
when a retry follows) is `WEBHOOK_RETRY_DELAY * (i + 1)`: the sleep
sequence is `5, 10, 15, ...` — an arithmetic progression, strictly
increasing, but offset by one base unit from the claimed
`base * attemptNumber`. -/
theorem C6_amended_linear_backoff (oracle : Nat → HttpResult) :
    (deliver_webhook oracle).sleeps =
      (List.range (deliver_webhook oracle).sleeps.length).map
        (fun i => settings.WEBHOOK_RETRY_DELAY * (i + 1)) := by
  rw [deliver_webhook]
  have h := deliverLoop_sleeps_formula oracle settings.WEBHOOK_MAX_RETRIES 0 (by omega)
  rw [h]
  simp only [List.length_map, List.length_range]
  apply List.map_congr_left
  intro i _
  ring_nf

/-! ## Dictionary lemmas -/

lemma lookup_setEntry_self {V : Type} (m : List (String × V)) (k : String) (v : V) :
    lookupEntry (setEntry m k v) k = some v := by
  induction m with
  | nil => simp [setEntry, lookupEntry]
  | cons p rest ih =>
    obtain ⟨k', v'⟩ := p
    by_cases h : k' = k
    · simp [setEntry, h, lookupEntry]
    · simp [setEntry, h, lookupEntry, ih]

lemma lookup_setEntry_ne {V : Type} (m : List (String × V)) (k q : String) (v : V)
    (h : q ≠ k) : lookupEntry (setEntry m k v) q = lookupEntry m q := by
  have hk : ¬ k = q := fun e => h e.symm
  induction m with
  | nil => simp [setEntry, lookupEntry, hk]
  | cons p rest ih =>
    obtain ⟨k', v'⟩ := p
    by_cases h2 : k' = k
    · subst h2
      simp [setEntry, lookupEntry, hk]
    · simp [setEntry, h2, lookupEntry, ih]

lemma mem_keys_setEntry {V : Type} (m : List (String × V)) (k q : String) (v : V) :
    q ∈ (setEntry m k v).map (·.1) ↔ q ∈ m.map (·.1) ∨ q = k := by
  induction m with
  | nil => simp [setEntry, eq_comm]
  | cons p rest ih =>
    obtain ⟨k', v'⟩ := p
    by_cases h : k' = k
    · subst h
      simp [setEntry, eq_comm]
      tauto
    · simp [setEntry, h, ih]
      tauto

lemma lookup_eq_none_of_not_mem {V : Type} (m : List (String × V)) (q : String)
    (h : q ∉ m.map (·.1)) : lookupEntry m q = none := by
  induction m with
  | nil => rfl
  | cons p rest ih =>
    obtain ⟨k', v'⟩ := p
    have h1 : ¬ k' = q := fun e => h (by simp [e])
    have h2 : q ∉ rest.map (·.1) := fun hm => h (by simp [hm])
    simp [lookupEntry, h1, ih h2]

/-! ## The queue state machine: step lemmas and the status invariant -/

lemma tick_eq {backend : JobData → BackendOutcome} {s : QueueState} {jd : JobData}
    {rest : List JobData} (hq : s.queue = jd :: rest) :
    tick backend s =
      { queue := rest,
        processing := setEntry (setEntry s.processing jd.job_id .processing) jd.job_id
          (match (process_analysis_job backend jd).1 with
            | .ok _ => ProcEntry.completed
            | .error e => ProcEntry.failed e),
        execLog := s.execLog ++ [jd.job_id],
        webhookLog := s.webhookLog ++ (process_analysis_job backend jd).2 } := by
  simp [tick, hq]

lemma tick_nil_eq {backend : JobData → BackendOutcome} {s : QueueState}
    (hq : s.queue = []) : tick backend s = s := by
  simp [tick, hq]

lemma stepMono_refl (s : QueueState) : stepMono s s :=
  fun _ => ⟨Nat.le_refl _, fun _ => rfl⟩

lemma stepMono_addJob {s : QueueState} {jd : JobData}
    (hfresh : jd.job_id ∉ procIds s) : stepMono s (addJob s jd) := by
  intro q
  by_cases h : q = jd.job_id
  · have h0 : jobStatus s q = none := by
      rw [h]; exact lookup_eq_none_of_not_mem _ _ hfresh
    constructor
    · rw [h0]; exact Nat.zero_le _
    · rw [h0]; intro ht; cases ht
  · have h1 : jobStatus (addJob s jd) q = jobStatus s q := by
      simp only [jobStatus, addJob]
      exact lookup_setEntry_ne _ _ _ _ h
    rw [h1]
    exact ⟨Nat.le_refl _, fun _ => rfl⟩

lemma qinv_addJob {s : QueueState} {jd : JobData} (hinv : QInv s)
    (hfresh : jd.job_id ∉ procIds s) : QInv (addJob s jd) := by
  obtain ⟨h1, h2, h3⟩ := hinv
  have hq : queueIds (addJob s jd) = queueIds s ++ [jd.job_id] := by
    simp [queueIds, addJob]
  refine ⟨?_, ?_, ?_⟩
  · rw [hq, List.nodup_append]
    exact ⟨h1, List.nodup_singleton _,
      fun a ha => by simp; intro e; exact hfresh (e ▸ h2 a ha)⟩
  · intro q hmem
    rw [hq, List.mem_append] at hmem
    have hor : q ∈ procIds s ∨ q = jd.job_id := by
      rcases hmem with hmem | hmem
      · exact Or.inl (h2 q hmem)
      · exact Or.inr (by simpa using hmem)
    simp only [procIds, addJob]
    exact (mem_keys_setEntry _ _ _ _).mpr hor
  · intro jd' hjd'
    have hor : jd' ∈ s.queue ∨ jd' = jd := by
      simpa [addJob] using hjd'
    simp only [jobStatus, addJob]
    rcases hor with hmem | heq
    · have hne : jd'.job_id ≠ jd.job_id := by
        intro e
        exact hfresh (e ▸ h2 _ (List.mem_map_of_mem _ hmem))
      rw [lookup_setEntry_ne _ _ _ _ hne]
      exact h3 jd' hmem
    · rw [heq]
      exact lookup_setEntry_self _ _ _

lemma stepMono_tick {backend : JobData → BackendOutcome} {s : QueueState}
    (hinv : QInv s) : stepMono s (tick backend s) := by
  cases hq : s.queue with
  | nil => rw [tick_nil_eq hq]; exact stepMono_refl s
  | cons jd rest =>
    intro q
    by_cases h : q = jd.job_id
    · have hp : jobStatus s q = some .pending := by
        rw [h]
        exact hinv.2.2 jd (by rw [hq]; exact List.mem_cons_self _ _)
      have ht : statusRank (jobStatus (tick backend s) q) = 3 := by
        rw [h]
        simp only [jobStatus, tick_eq hq]
        rw [lookup_setEntry_self]
        cases hpr : (process_analysis_job backend jd).1 <;> simp [statusRank]
      constructor
      · rw [hp, ht]; decide
      · rw [hp]; intro habs; simp [isTerminalEntry] at habs
    · have hsame : jobStatus (tick backend s) q = jobStatus s q := by
        simp only [jobStatus, tick_eq hq]
        rw [lookup_setEntry_ne _ _ _ _ h, lookup_setEntry_ne _ _ _ _ h]
      rw [hsame]
      exact ⟨Nat.le_refl _, fun _ => rfl⟩

lemma qinv_tick {backend : JobData → BackendOutcome} {s : QueueState}
    (hinv : QInv s) : QInv (tick backend s) := by
  cases hq : s.queue with
  | nil => rw [tick_nil_eq hq]; exact hinv
  | cons jd rest =>
    obtain ⟨h1, h2, h3⟩ := hinv
    have hqs : queueIds s = jd.job_id :: rest.map (·.job_id) := by
      simp [queueIds, hq]
    have h1' : (jd.job_id :: rest.map (·.job_id)).Nodup := hqs ▸ h1
    refine ⟨?_, ?_, ?_⟩
    · have : queueIds (tick backend s) = rest.map (·.job_id) := by
        simp [queueIds, tick_eq hq]
      rw [this]
      exact (List.nodup_cons.mp h1').2
    · intro q hmem
      have hmem' : q ∈ queueIds s := by
        rw [hqs]
        apply List.mem_cons_of_mem
        simpa [queueIds, tick_eq hq] using hmem
      simp only [procIds, tick_eq hq]
      exact (mem_keys_setEntry _ _ _ _).mpr
        (Or.inl ((mem_keys_setEntry _ _ _ _).mpr (Or.inl (h2 q hmem'))))
    · intro jd' hjd'
      have hjd'' : jd' ∈ rest := by
        simpa [tick_eq hq] using hjd'
      have hmem : jd' ∈ s.queue := by
        rw [hq]; exact List.mem_cons_of_mem _ hjd''
      have hne : jd'.job_id ≠ jd.job_id := by
        intro e
        exact (List.nodup_cons.mp h1').1 (e ▸ List.mem_map_of_mem _ hjd'')
      simp only [jobStatus, tick_eq hq]
      rw [lookup_setEntry_ne _ _ _ _ hne, lookup_setEntry_ne _ _ _ _ hne]
      exact h3 jd' hmem

lemma procIds_tick_sub {backend : JobData → BackendOutcome} {s : QueueState}
    (hinv : QInv s) {q : String} (h : q ∈ procIds (tick backend s)) :
    q ∈ procIds s := by
  cases hq : s.queue with
  | nil => rw [tick_nil_eq hq] at h; exact h
  | cons jd rest =>
    have hjq : jd.job_id ∈ procIds s :=
      hinv.2.1 jd.job_id (by simp [queueIds, hq])
    rw [tick_eq hq] at h
    simp only [procIds] at h
    rcases (mem_keys_setEntry _ _ _ _).mp h with h2 | h2
    · rcases (mem_keys_setEntry _ _ _ _).mp h2 with h3 | h3
      · exact h3
      · exact h3 ▸ hjq
    · exact h2 ▸ hjq

lemma qinv_init : QInv initQueueState := by
  refine ⟨?_, ?_, ?_⟩ <;> simp [queueIds, initQueueState, QInv, procIds]

lemma stepsMono_of_fresh (backend : JobData → BackendOutcome) :
    ∀ (ops : List QOp) (s : QueueState), QInv s → (addIds ops).Nodup →
      (∀ id ∈ addIds ops, id ∉ procIds s) → StepsMono backend s ops := by
  intro ops
  induction ops with
  | nil => intro s _ _ _; trivial
  | cons op ops ih =>
    intro s hinv hnd hfresh
    cases op with
    | add jd =>
      have hnd' := List.nodup_cons.mp (by simpa [addIds] using hnd)
      have hj : jd.job_id ∉ procIds s := hfresh _ (by simp [addIds])
      refine ⟨stepMono_addJob hj, ih _ (qinv_addJob hinv hj) hnd'.2 ?_⟩
      intro id hid hmem
      have hne : id ≠ jd.job_id := fun e => hnd'.1 (e ▸ hid)
      have hid' : id ∉ procIds s := hfresh _ (by simp [addIds, hid])
      rcases (mem_keys_setEntry _ _ _ _).mp hmem with h | h
      · exact hid' h
      · exact hne h
    | tick =>
      refine ⟨stepMono_tick hinv, ih _ (qinv_tick hinv)
        (by simpa [addIds] using hnd) ?_⟩
      intro id hid hmem
      exact hfresh id (by simpa [addIds] using hid) (procIds_tick_sub hinv hmem)

/-- C2 (corrected, amended part): as long as no job id is submitted
twice, every reachable step of the in-memory queue moves each job's
status only forward along
`Pending → Processing → {Completed | Failed}` and never out of a
terminal state. -/
theorem C2_amended_monotone (backend : JobData → BackendOutcome) (ops : List QOp)
    (h : (addIds ops).Nodup) : StepsMono backend initQueueState ops :=
  stepsMono_of_fresh backend ops initQueueState qinv_init h
    (by simp [procIds, initQueueState])

/-- Witness for `C2_amended_monotone` on the trace add, process. -/
theorem C2_witness :
    (addIds [QOp.add demoJob, QOp.tick]).Nodup ∧
      StepsMono demoBackend initQueueState [QOp.add demoJob, QOp.tick] :=
  ⟨by decide, C2_amended_monotone demoBackend [QOp.add demoJob, QOp.tick] (by decide)⟩

/-- C2 (corrected, counterexample): the claim quantifies over *every*
reachable operation sequence, but `add_analysis_job` resets the status
dict entry to `pending` unconditionally, so re-submitting a completed
job id moves its status from `completed` back to `pending`: the trace
add `job_1`, process it, add `job_1` again is not monotone. -/
theorem C2_counterexample :
    ¬ StepsMono demoBackend initQueueState
        [QOp.add demoJob, QOp.tick, QOp.add demoJob] := by
  intro h
  have h3 := (h.2.2.1 "job_1").1
  exact absurd h3 (by decide)

/-- C3 (corrected, counterexample): submitting the same job id twice
succeeds *both* times (`add_analysis_job` always returns the job id —
there is no `DuplicateId` failure anywhere in `queue.py`) and the
second submission re-enqueues the job: the queue then holds two
entries. -/
theorem C3_counterexample :
    (add_analysis_job initQueueState demoJob).1 = "job_1" ∧
    (add_analysis_job (add_analysis_job initQueueState demoJob).2 demoJob).1 = "job_1" ∧
    (add_analysis_job (add_analysis_job initQueueState demoJob).2 demoJob).2.queue
      = [demoJob, demoJob] :=
  ⟨rfl, rfl, rfl⟩

/-- C3 (corrected, amended part): `add_analysis_job` performs no
duplicate check at all: every call — first or repeated — returns the
job id, appends the job to the in-memory queue, and (re)sets the job's
status entry to `pending`. -/
theorem C3_amended_no_duplicate_check (s : QueueState) (jd : JobData) :
    (add_analysis_job s jd).1 = jd.job_id ∧
    (add_analysis_job s jd).2.queue = s.queue ++ [jd] ∧
    jobStatus (add_analysis_job s jd).2 jd.job_id = some .pending :=
  ⟨rfl, rfl, lookup_setEntry_self _ _ _⟩

/-- C7 (corrected, counterexample): in the in-memory fallback a job
whose task raises is executed exactly once and immediately marked
`failed` — not retried 3 times as the claim states: after add and two
background iterations the exec log shows a single attempt. -/
theorem C7_counterexample :
    (runOps demoFailBackend initQueueState
        [QOp.add demoJob, QOp.tick, QOp.tick]).execLog.count "job_1" = 1 ∧
    jobStatus (runOps demoFailBackend initQueueState
        [QOp.add demoJob, QOp.tick, QOp.tick]) "job_1" = some (.failed "boom") ∧
    (runOps demoFailBackend initQueueState
        [QOp.add demoJob, QOp.tick, QOp.tick]).execLog.count "job_1"
      ≠ bullAddOptions.attempts := by
  refine ⟨by decide, by decide, by decide⟩

/-- C7 (corrected, amended part): the 3-attempt exponential-backoff
retry (base 2000 ms) exists only as the job options handed to BullMQ;
the in-memory fallback gives a raising task exactly one execution and
then records `failed` with the raised error. -/
theorem C7_amended_single_attempt (backend : JobData → BackendOutcome)
    (s : QueueState) (jd : JobData) (rest : List JobData) (e : String)
    (hq : s.queue = jd :: rest) (hb : backend jd = .exception e) :
    jobStatus (tick backend s) jd.job_id = some (.failed e) ∧
    (tick backend s).execLog = s.execLog ++ [jd.job_id] ∧
    bullAddOptions = ⟨3, "exponential", 2000⟩ := by
  have hpr : (process_analysis_job backend jd).1 = Except.error e := by
    simp [process_analysis_job, hb]
  refine ⟨?_, ?_, rfl⟩
  · simp only [jobStatus, tick_eq hq, hpr]
    exact lookup_setEntry_self _ _ _
  · simp [tick_eq hq]

/-- Witness for `C7_amended_single_attempt` on a raising backend. -/
theorem C7_witness :
    (addJob initQueueState demoJob).queue = demoJob :: [] ∧
    demoFailBackend demoJob = .exception "boom" ∧
    (jobStatus (tick demoFailBackend (addJob initQueueState demoJob)) demoJob.job_id
        = some (.failed "boom") ∧
      (tick demoFailBackend (addJob initQueueState demoJob)).execLog
        = (addJob initQueueState demoJob).execLog ++ [demoJob.job_id] ∧
      bullAddOptions = ⟨3, "exponential", 2000⟩) :=
  ⟨rfl, rfl,
    C7_amended_single_attempt demoFailBackend (addJob initQueueState demoJob)
      demoJob [] "boom" rfl rfl⟩

/-- C9 (code bug): after a successful analysis of `demoJob` the status
query does return `status = "completed"` and the webhook URL receives
exactly one `analysis.completed` dispatch carrying the full analysis
result (`document_id = "doc-123"`), but the job endpoint's `result`
field is `none`: `_process_queue_background` stores only
`{"status": "completed"}`, discarding the processor's return value, so
the `"result" in job_data` branch of `get_job` can never fire and the
claimed `result.documentId` is unobservable. -/
theorem C9_completed_result_dropped :
    get_job (runOps demoBackend initQueueState [QOp.add demoJob, QOp.tick]) "job_1"
      = .ok ⟨"job_1", "completed", none, none⟩ ∧
    ((runOps demoBackend initQueueState [QOp.add demoJob, QOp.tick]).webhookLog.filter
      (fun c => c.url == "https://w.example" && c.event == "analysis.completed")).length
        = 1 ∧
    (runOps demoBackend initQueueState [QOp.add demoJob, QOp.tick]).webhookLog
      = [⟨"https://w.example", "analysis.completed", analysisResult demoJob demoDoc⟩] :=
  ⟨rfl, rfl, rfl⟩

/-! ## Serialization ordering (C8) and the signature round-trip -/

lemma sortFields_payload (E D T : List Char) :
    sortFields [("event", E), ("data", D), ("timestamp", T)]
      = [("data", D), ("event", E), ("timestamp", T)] := rfl

lemma webhookBodySep_head (isep ksep : List Char) (e : String) (d : Json)
    (t : String) :
    ∃ r, webhookBodySep isep ksep (webhookPayload e d t) = '{' :: '"' :: 'e' :: r :=
  ⟨_, rfl⟩

lemma signatureInput_head (e : String) (d : Json) (t : String) :
    ∃ r, signatureInput (webhookPayload e d t) = '{' :: '"' :: 'd' :: r :=
  ⟨_, rfl⟩

/-- C8 (corrected, amended part): the signature is computed over
`json.dumps(payload, sort_keys=True)` (first rendered key `"data"`),
while the body httpx sends is a `json.dumps` of the payload in dict
insertion order (first rendered key `"event"`), so for *every* webhook
payload — and under *every* separator convention httpx may use for the
body, default or compact, whatever the installed httpx version — the
signed bytes and the sent body differ already at their third
character: the receiver recomputing HMAC over the exact received body
does not hash the signed serialization. -/
theorem C8_amended_differ (isep ksep : List Char) (e : String) (d : Json)
    (t : String) :
    webhookBodySep isep ksep (webhookPayload e d t)
      ≠ signatureInput (webhookPayload e d t) := by
  obtain ⟨r1, h1⟩ := webhookBodySep_head isep ksep e d t
  obtain ⟨r2, h2⟩ := signatureInput_head e d t
  rw [h1, h2]
  intro h
  simp at h

/-- C8 (corrected, counterexample): at a concrete payload the sent body
(insertion key order — shown under the default-separator encoding of
httpx up to 0.27 and under the compact encoding of later releases) and
the signed serialization (sorted keys) are different strings,
contradicting the claim that the body is serialized with the same
deterministic key ordering used for signing. -/
theorem C8_counterexample :
    dumpsStr false (webhookPayload "analysis.completed"
        (.obj [("job_id", .str "job_1")]) "2024-01-01T00:00:00")
      = "\x7b\"event\": \"analysis.completed\", \"data\": \x7b\"job_id\": \"job_1\"\x7d, \"timestamp\": \"2024-01-01T00:00:00\"\x7d" ∧
    dumpsStr true (webhookPayload "analysis.completed"
        (.obj [("job_id", .str "job_1")]) "2024-01-01T00:00:00")
      = "\x7b\"data\": \x7b\"job_id\": \"job_1\"\x7d, \"event\": \"analysis.completed\", \"timestamp\": \"2024-01-01T00:00:00\"\x7d" ∧
    webhookBody (webhookPayload "analysis.completed"
        (.obj [("job_id", .str "job_1")]) "2024-01-01T00:00:00")
      ≠ signatureInput (webhookPayload "analysis.completed"
        (.obj [("job_id", .str "job_1")]) "2024-01-01T00:00:00") ∧
    webhookBodySep [','] [':'] (webhookPayload "analysis.completed"
        (.obj [("job_id", .str "job_1")]) "2024-01-01T00:00:00")
      ≠ signatureInput (webhookPayload "analysis.completed"
        (.obj [("job_id", .str "job_1")]) "2024-01-01T00:00:00") :=
  ⟨rfl, rfl, by decide, by decide⟩

/-- The provable half of C1: `verify_signature` recomputes
`generate_signature` and compares, so verification of a freshly
generated signature always succeeds, for every payload and secret.
(The other half of C1 — that every single-bit mutation flips the
verdict — is the collision-freeness of HMAC-SHA256 on neighbouring
inputs and is settled neither way here.) -/
lemma verify_generate_roundtrip (p : Json) (s : String) :
    verify_signature p (generate_signature p s) s = true := by
  simp [verify_signature, compare_digest]

/-! ## API keys (C10) -/

lemma splitOnce_key (l : List Char) :
    splitOnceUnderscore ('k' :: 'e' :: 'y' :: '_' :: l) = some (['k', 'e', 'y'], l) := rfl

lemma lookup_none_of_key_shape (store : List (String × KeyInfo))
    (h : ∀ p ∈ store, ∃ tok, p.1 = "key_" ++ tok) :
    lookupEntry store "key" = none := by
  induction store with
  | nil => rfl
  | cons p rest ih =>
    obtain ⟨k', v'⟩ := p
    obtain ⟨tok, htok⟩ := h (k', v') (List.mem_cons_self _ _)
    have hne : ¬ k' = "key" := by
      rw [show ((k', v').1) = k' from rfl] at htok
      rw [htok]
      intro heq
      have hl := congrArg String.length heq
      rw [String.length_append] at hl
      rw [show ("key_" : String).length = 4 from rfl,
          show ("key" : String).length = 3 from rfl] at hl
      omega
    rw [show lookupEntry ((k', v') :: rest) "key"
          = if k' = "key" then some v' else lookupEntry rest "key" from rfl,
        if_neg hne]
    exact ih (fun p hp => h p (List.mem_cons_of_mem _ hp))

/-- C10 (confirmed): every full key produced by `generate_api_key` has
the shape `key_<token16>_<token32>`, so `validate_api_key` — which
splits on the *first* underscore — looks up the id `"key"`; since every
stored id has the shape `key_<token>` (length ≥ 4), the lookup fails
and validation returns `None` for every generated key. -/
theorem C10_generated_key_never_validates (store : List (String × KeyInfo))
    (t16 t32 : String) (h : ∀ p ∈ store, ∃ tok, p.1 = "key_" ++ tok) :
    validate_api_key store ((generate_api_key store t16 t32).1.2) = none := by
  have hdata : ((("key_" ++ t16) ++ "_") ++ t32).data
      = 'k' :: 'e' :: 'y' :: '_' :: (t16.data ++ '_' :: t32.data) := by
    rw [String.data_append, String.data_append, String.data_append]
    rw [show ("key_" : String).data = ['k', 'e', 'y', '_'] from rfl,
        show ("_" : String).data = ['_'] from rfl]
    simp
  have hsplit : splitOnceUnderscore ((("key_" ++ t16) ++ "_") ++ t32).data
      = some (['k', 'e', 'y'], t16.data ++ '_' :: t32.data) := by
    rw [hdata, splitOnce_key]
  have hk : String.mk ['k', 'e', 'y'] = "key" := rfl
  show validate_api_key store ((("key_" ++ t16) ++ "_") ++ t32) = none
  simp only [validate_api_key, hsplit, hk, lookup_none_of_key_shape store h]

/-- Witness for `C10_generated_key_never_validates` on a store holding
one previously generated key. -/
theorem C10_witness :
    (∀ p ∈ [("key_abc", (⟨"key_abc", "hash", 100, "free", true⟩ : KeyInfo))],
        ∃ tok, p.1 = "key_" ++ tok) ∧
    validate_api_key [("key_abc", ⟨"key_abc", "hash", 100, "free", true⟩)]
      ((generate_api_key [("key_abc", ⟨"key_abc", "hash", 100, "free", true⟩)]
        "abc" "xyz").1.2) = none := by
  have hshape : ∀ p ∈ [("key_abc", (⟨"key_abc", "hash", 100, "free", true⟩ : KeyInfo))],
      ∃ tok, p.1 = "key_" ++ tok := by
    intro p hp
    rw [List.mem_singleton] at hp
    subst hp
    exact ⟨"abc", by decide⟩
  exact ⟨hshape, C10_generated_key_never_validates _ "abc" "xyz" hshape⟩

end Aegis
